import Mathlib

/-!
Verification of the session-lifecycle core of the repository (src/Client.js,
the Client class of a discord.js-selfbot fork) against its natural-language
specification.  The JavaScript code is shallowly embedded: JS numbers are
modelled as rationals extended with NaN and the two infinities, JS strings as
Lean strings, the mutable client fields that the verified claims touch as an
explicit record threaded through the operations, and every network round-trip
as an explicit parameter carrying the outcome the environment would supply.
All definitions are translated from the source; definitions whose name starts
with spec are the one exception, they transcribe the specification text and
exist only to be compared with the source-derived definitions.
-/

namespace ClientCore

/-! ## JS number model

A JavaScript number is modelled as a rational, NaN, or an infinity.  This is
faithful for every value the verified claims exercise (doubles are a subset of
the rationals plus the three special values; rounding never occurs in the
modelled code paths, which only compare, truncate and convert to int32). -/

inductive JSNum where
  | num (q : ℚ)
  | nan
  | posInf
  | negInf
deriving DecidableEq, Repr

/-- JS truncation toward zero of a rational (the integer part used by
ToInt32 and ToLength). -/
def jsTrunc (q : ℚ) : ℤ :=
  if 0 ≤ q then ⌊q⌋ else ⌈q⌉

/-- ECMAScript ToInt32 on a finite number: truncate, reduce mod 2^32 into
the signed 32-bit range. -/
def toInt32 (q : ℚ) : ℤ :=
  let m := jsTrunc q % 4294967296
  if 2147483648 ≤ m then m - 4294967296 else m

/-- The JS expression item | 0 : ToInt32, with NaN and infinities mapped
to 0. -/
def jsOr0 : JSNum → JSNum
  | .num q => .num ((toInt32 q : ℤ) : ℚ)
  | .nan => .num 0
  | .posInf => .num 0
  | .negInf => .num 0

def jsIsNaN : JSNum → Bool
  | .nan => true
  | _ => false

/-- JS loose/strict numeric comparison a <= b (false whenever NaN is
involved). -/
def jsLe : JSNum → JSNum → Bool
  | .num a, .num b => decide (a ≤ b)
  | .num _, .posInf => true
  | .num _, .negInf => false
  | .num _, .nan => false
  | .posInf, .posInf => true
  | .posInf, _ => false
  | .negInf, .nan => false
  | .negInf, _ => true
  | .nan, _ => false

/-- JS numeric comparison a < b (false whenever NaN is involved). -/
def jsLt : JSNum → JSNum → Bool
  | .num a, .num b => decide (a < b)
  | .num _, .posInf => true
  | .num _, .negInf => false
  | .num _, .nan => false
  | .posInf, _ => false
  | .negInf, .nan => false
  | .negInf, .negInf => false
  | .negInf, _ => true
  | .nan, _ => false

/-- JS strict equality === on numbers (NaN is not equal to itself). -/
def jsEqb : JSNum → JSNum → Bool
  | .num a, .num b => decide (a = b)
  | .posInf, .posInf => true
  | .negInf, .negInf => true
  | _, _ => false

/-! ## Shard Plan Resolver (src/Client.js lines 61-91 and 1072-1078) -/

/-- The filter predicate of src/Client.js line 86:
not isNaN(item) and item >= 0 and item < Infinity and item === (item | 0). -/
def shardKeep (x : JSNum) : Bool :=
  !jsIsNaN x && jsLe (.num 0) x && jsLt x .posInf && jsEqb x (jsOr0 x)

/-- Deduplication with the insertion-order semantics of a JS Set: the first
occurrence of each element is kept, later duplicates are dropped. -/
def dedupFirstGo (seen : List JSNum) : List JSNum → List JSNum
  | [] => []
  | x :: xs => if x ∈ seen then dedupFirstGo seen xs else x :: dedupFirstGo (x :: seen) xs

/-- Spreading new Set(list) into an array: first-occurrence deduplication. -/
def dedupFirst (xs : List JSNum) : List JSNum :=
  dedupFirstGo [] xs

/-- src/Client.js lines 83-89: the shard-list normalization applied to an
array of raw shard values — filter, then deduplicate via a Set spread. -/
def resolveShardList (xs : List JSNum) : List JSNum :=
  dedupFirst (xs.filter shardKeep)

/-- Modelled from the spec (section 4.1 and section 8): keep exactly the
finite non-negative integer elements.  Used only to compare the claim C3
wording with the source behaviour. -/
def specFiniteNonnegInt : JSNum → Bool
  | .num q => decide (0 ≤ q) && decide (q.den = 1)
  | _ => false

/-- Modelled from the spec: the shard resolution claim C3 describes —
deduplicated, filtered to finite non-negative integers, first-occurrence
order preserved. -/
def specResolveShardList (xs : List JSNum) : List JSNum :=
  dedupFirst (xs.filter specFiniteNonnegInt)

/-- The predicate the source actually implements: a non-negative integer
representable in signed 32-bit range, that is, strictly below 2^31. -/
def int32Keep : JSNum → Bool
  | .num q => decide (0 ≤ q) && decide (q.den = 1) && decide (q < 2147483648)
  | _ => false

/-! ## Shard option normalization and validation (claim C5) -/

/-- The shapes the shards option can take in the modelled code paths:
undefined, the string auto, a scalar number, or an array of numbers. -/
inductive ShardsOpt where
  | undef
  | auto
  | scalar (x : JSNum)
  | list (xs : List JSNum)
deriving DecidableEq, Repr

/-- The construction-time errors of the shard pipeline: the TypeError for a
bad shardCount, the TypeError for a bad shards option, and the RangeError
CLIENT_INVALID_PROVIDED_SHARDS for an empty shard list (all three are the
ConfigurationError of the specification's taxonomy). -/
inductive ConfigErr where
  | invalidShardCount
  | invalidShardsOption
  | emptyShards
deriving DecidableEq, Repr

/-- ECMAScript ToLength, used by Array.from on an array-like length. -/
def toLength : JSNum → ℕ
  | .nan => 0
  | .negInf => 0
  | .posInf => 2 ^ 53 - 1
  | .num q => if q ≤ 0 then 0 else min (jsTrunc q).toNat (2 ^ 53 - 1)

/-- Array.from with length n and mapper (_, i) => i : the dense range. -/
def rangeShards (n : ℕ) : List JSNum :=
  (List.range n).map fun i => JSNum.num i

/-- src/Client.js lines 75-89 (run after the environment-override and
count-defaulting merge of lines 58-73, whose post-merge values are this
function's inputs): synthesize a dense range when shards is undefined and
shardCount is a number, wrap a scalar, then filter and deduplicate any
array. -/
def normalizeShards (shards : ShardsOpt) (shardCount : Option JSNum) : ShardsOpt :=
  match shards with
  | .undef =>
    match shardCount with
    | some c => .list (resolveShardList (rangeShards (toLength c)))
    | none => .undef
  | .scalar x => .list (resolveShardList [x])
  | .auto => .auto
  | .list xs => .list (resolveShardList xs)

/-- JS truthiness of the shards option value. -/
def jsShardsTruthy : ShardsOpt → Bool
  | .undef => false
  | .auto => true
  | .scalar x => match x with
    | .num q => decide (q ≠ 0)
    | .nan => false
    | _ => true
  | .list _ => true

/-- The shards option is the string auto or an array (line 1075). -/
def isAutoOrArray : ShardsOpt → Bool
  | .auto => true
  | .list _ => true
  | _ => false

/-- Truthiness of options.shards.length (line 1078): a string has its
character count, an array its element count, a number has no length. -/
def shardsLengthy : ShardsOpt → Bool
  | .auto => true
  | .list xs => decide (xs ≠ [])
  | .scalar _ => false
  | .undef => false

/-- The shardCount test of src/Client.js line 1072: typeof not a number, or
NaN, or below 1.  none models a non-number value. -/
def shardCountBad : Option JSNum → Bool
  | none => true
  | some .nan => true
  | some .posInf => false
  | some .negInf => true
  | some (.num q) => decide (q < 1)

/-- src/Client.js lines 1072-1078, the shard-related checks of
_validateOptions, run on the normalized options. -/
def validateShardOptions (shards : ShardsOpt) (shardCount : Option JSNum) : Option ConfigErr :=
  if shardCountBad shardCount then some .invalidShardCount
  else if jsShardsTruthy shards && !isAutoOrArray shards then some .invalidShardsOption
  else if jsShardsTruthy shards && !shardsLengthy shards then some .emptyShards
  else none

/-- The shard pipeline of the constructor: normalize (lines 75-89), then
validate (line 91).  The constructor performs no network operation, so a
returned error is raised before any network call. -/
def clientConstruct (shards : ShardsOpt) (shardCount : Option JSNum) :
    Except ConfigErr (ShardsOpt × Option JSNum) :=
  let ns := normalizeShards shards shardCount
  match validateShardOptions ns shardCount with
  | some e => .error e
  | none => .ok (ns, shardCount)

/-- Modelled from the spec: the shard count is a positive integer (the claim
C5 wording).  Used only to compare with the source check. -/
def specPosIntCount : Option JSNum → Bool
  | some (.num q) => decide (0 < q) && decide (q.den = 1)
  | _ => false

/-! ## String utilities shared by the authentication paths -/

/-- Lower-case an ASCII letter (the case folding the i regex flag applies on
the token scheme letters). -/
def asciiLower (c : Char) : Char :=
  if 'A' ≤ c && c ≤ 'Z' then Char.ofNat (c.toNat + 32) else c

/-- Case-insensitive literal prefix match: returns the rest of the input
when the pattern matches its front. -/
def ciPref : List Char → List Char → Option (List Char)
  | [], s => some s
  | _ :: _, [] => none
  | p :: ps, c :: cs => if asciiLower c = asciiLower p then ciPref ps cs else none

/-- The character class matched by a backslash-s in a JS regex. -/
def jsWhitespace (c : Char) : Bool :=
  let n := c.toNat
  (9 ≤ n && n ≤ 13) || n = 32 || n = 160 || n = 5760 ||
    (8192 ≤ n && n ≤ 8202) || n = 8232 || n = 8233 || n = 8239 || n = 8287 ||
    n = 12288 || n = 65279

/-- src/Client.js line 331: token.replace with the anchored case-insensitive
regex alternation Bot or Bearer followed by any (possibly empty) run of
whitespace, the match replaced by the empty string. -/
def stripScheme (s : String) : String :=
  match ciPref "Bot".data s.data with
  | some rest => String.mk (rest.dropWhile jsWhitespace)
  | none =>
    match ciPref "Bearer".data s.data with
    | some rest => String.mk (rest.dropWhile jsWhitespace)
    | none => s

/-- Case-sensitive literal prefix test on character lists (pattern first). -/
def litPref : List Char → List Char → Bool
  | [], _ => true
  | _ :: _, [] => false
  | p :: ps, c :: cs => c = p && litPref ps cs

/-- Modelled from the spec: strip a literal leading scheme prefix, the words
of claim C6 read strictly (the quoted prefixes carry one trailing space).
Used only to compare with the source behaviour. -/
def specStrip (s : String) : String :=
  if litPref "Bot ".data s.data then String.mk (s.data.drop 4)
  else if litPref "Bearer ".data s.data then String.mk (s.data.drop 7)
  else s

/-- JS truthiness of a possibly-absent string (undefined and the empty
string are falsy). -/
def jsStrTruthy : Option String → Bool
  | some s => decide (s ≠ "")
  | none => false

/-! ## Second-factor code patterns (src/Client.js lines 395-400) -/

def isDigitCh (c : Char) : Bool := '0' ≤ c && c ≤ '9'

def isLowerAlnum (c : Char) : Bool := ('a' ≤ c && c ≤ 'z') || isDigitCh c

/-- Six consecutive digits at the front of the character list. -/
def sixDigitsAt : List Char → Bool
  | a :: b :: c :: d :: e :: f :: _ =>
    isDigitCh a && isDigitCh b && isDigitCh c && isDigitCh d && isDigitCh e && isDigitCh f
  | _ => false

/-- The unanchored regex of six digits: some suffix starts with six digits. -/
def hasSixDigitRun : List Char → Bool
  | [] => false
  | c :: cs => sixDigitsAt (c :: cs) || hasSixDigitRun cs

/-- The backup-code pattern of the source at the front of the list: four
lower-case alphanumerics, a dash, four lower-case alphanumerics. -/
def backupAt : List Char → Bool
  | a :: b :: c :: d :: '-' :: e :: f :: g :: h :: _ =>
    isLowerAlnum a && isLowerAlnum b && isLowerAlnum c && isLowerAlnum d &&
      isLowerAlnum e && isLowerAlnum f && isLowerAlnum g && isLowerAlnum h
  | _ => false

/-- The unanchored backup-code regex: some suffix starts with the pattern. -/
def hasBackupRun : List Char → Bool
  | [] => false
  | c :: cs => backupAt (c :: cs) || hasBackupRun cs

/-- src/Client.js line 400: the test normal2fa.test(mfaCode) or
backupCode.test(mfaCode), both regexes unanchored and case-sensitive. -/
def codeMatches (s : String) : Bool :=
  hasSixDigitRun s.data || hasBackupRun s.data

/-- Modelled from the spec: a 6-digit numeric code, exactly (claim C4 read
strictly: the whole code is six digits). -/
def specSixDigit (s : String) : Bool :=
  decide (s.data.length = 6) && s.data.all isDigitCh

def isAlnumCh (c : Char) : Bool :=
  ('a' ≤ c && c ≤ 'z') || ('A' ≤ c && c ≤ 'Z') || isDigitCh c

/-- Modelled from the spec: the backup-code shape of claim C4 — four
alphanumerics, a dash, four alphanumerics, exactly. -/
def specBackup (s : String) : Bool :=
  match s.data with
  | [a, b, c, d, '-', e, f, g, h] =>
    isAlnumCh a && isAlnumCh b && isAlnumCh c && isAlnumCh d &&
      isAlnumCh e && isAlnumCh f && isAlnumCh g && isAlnumCh h
  | _ => false

/-- Modelled from the spec: the pattern acceptance claim C4 describes. -/
def specCodeMatches (s : String) : Bool :=
  specSixDigit s || specBackup s

/-! ## Client lifecycle state (the fields the verified claims touch) -/

/-- A registered finalizer cleanup: an identity and whether invoking it
throws.  The set of these models the _cleanups Set of src/Client.js. -/
structure Cleanup where
  id : ℕ
  throws : Bool
deriving DecidableEq, Repr

/-- The mutable client fields touched by the modelled operations: the token,
the cached password, the pending cleanup set (in insertion order), the
message-sweep interval and sweepers and websocket teardown flags, and the
used-code list of the redemption path. -/
structure ClientState where
  token : Option String
  password : Option String
  cleanups : List Cleanup
  sweepMessageTimer : Bool
  sweepersActive : Bool
  wsActive : Bool
  usedCodes : List String
deriving DecidableEq, Repr

/-- Run the pending cleanups in order, as the for-of loop of destroy does:
each is invoked until one throws; the invoked ids are logged, and the id of
the throwing cleanup (if any) is returned.  destroy has no try/catch around
this loop (the catch lives only in _finalize, the GC path). -/
def runCleanups : List Cleanup → List ℕ × Option ℕ
  | [] => ([], none)
  | c :: cs =>
    if c.throws then ([c.id], some c.id)
    else
      let r := runCleanups cs
      (c.id :: r.1, r.2)

/-- The state a completed destroy() leaves behind: cleanup set cleared,
timers cancelled, sweepers and websocket torn down, token and password
nulled.  The used-code list is untouched (destroy does not reset it). -/
def clearedState (st : ClientState) : ClientState :=
  { st with
    cleanups := []
    sweepMessageTimer := false
    sweepersActive := false
    wsActive := false
    token := none
    password := none }

/-- src/Client.js lines 566-578: destroy().  Returns the invoked cleanup
ids, the id of a cleanup whose exception escaped (none when the call
completed), and the resulting state.  When a cleanup throws, the exception
propagates out of destroy before the set is cleared, the timers cancelled,
the transport torn down, or the token and password nulled. -/
def destroy (st : ClientState) : List ℕ × Option ℕ × ClientState :=
  let r := runCleanups st.cleanups
  match r.2 with
  | some i => (r.1, some i, st)
  | none => (r.1, none, clearedState st)

/-! ## Token login (src/Client.js lines 329-362) -/

/-- The login argument: a JS string, or any non-string value (which the
typeof guard rejects whatever it is). -/
inductive TokenInput where
  | jstr (s : String)
  | nonStr
deriving DecidableEq, Repr

/-- The errors a login call can deliver: the TOKEN_INVALID validation error,
the rethrown transport connect error, or the exception of a cleanup that
threw while destroy was tearing the client down inside the catch block. -/
inductive LoginErr (E : Type) where
  | tokenInvalid
  | connectErr (e : E)
  | cleanupErr (id : ℕ)
deriving DecidableEq, Repr

/-- Everything a login call produces: the settled result, the cleanup
invocations it triggered, whether ws.connect was ever invoked, and the
resulting client state. -/
structure LoginOut (E : Type) where
  result : Except (LoginErr E) String
  cleanupLog : List ℕ
  connected : Bool
  state : ClientState
deriving Repr

/-- src/Client.js lines 329-362: login(token).  The connect outcome the
transport would produce is passed explicitly.  The token is validated and
stripped before any network activity; on connect failure destroy() runs and
the original error is rethrown — unless a cleanup throws inside destroy, in
which case that exception replaces it. -/
def login {E : Type} (st : ClientState) (input : TokenInput) (conn : Except E Unit) :
    LoginOut E :=
  match input with
  | .nonStr => ⟨.error .tokenInvalid, [], false, st⟩
  | .jstr s =>
    if s = "" then ⟨.error .tokenInvalid, [], false, st⟩
    else
      let t := stripScheme s
      let st1 := { st with token := some t }
      match conn with
      | .ok _ => ⟨.ok t, [], true, st1⟩
      | .error e =>
        match destroy st1 with
        | (log, some i, st2) => ⟨.error (.cleanupErr i), log, true, st2⟩
        | (log, none, st2) => ⟨.error (.connectErr e), log, true, st2⟩

/-! ## Credential login (src/Client.js lines 371-419) -/

/-- The shape of the first identity-endpoint response that normalLogin
inspects: an optional token, an optional MFA ticket, and the mfa flag. -/
structure AuthResponse where
  token : Option String
  ticket : Option String
  mfa : Bool
deriving DecidableEq, Repr

/-- What a normalLogin call does after its validation and first POST:
reject with the credential validation error, reject with LOGIN_FAILED_2FA
(the MfaRequiredError), reject with LOGIN_FAILED_UNKNOWN, or hand a token to
login().  tokenLogin records the token handed over, whether the MFA exchange
endpoint was POSTed, and with which code and ticket. -/
inductive NLOutcome where
  | invalidCreds
  | mfaRequired
  | unknownErr
  | tokenLogin (tok : String) (mfaPosted : Bool) (mfaArgs : Option (String × String))
deriving DecidableEq, Repr

/-- src/Client.js lines 371-419: normalLogin(username, password, mfaCode).
The first-response data and the token the MFA exchange would return are
passed explicitly.  The MFA branch requires no token, a truthy ticket and
the mfa flag; the code must be a string containing six consecutive digits or
a lower-case 4-dash-4 alphanumeric pattern, else LOGIN_FAILED_2FA is thrown
with no second network call. -/
def normalLogin (username password : Option String) (resp : AuthResponse)
    (mfaCode : Option String) (mfaRespToken : String) : NLOutcome :=
  if !jsStrTruthy username || !jsStrTruthy password then .invalidCreds
  else if !jsStrTruthy resp.token && jsStrTruthy resp.ticket && resp.mfa then
    match mfaCode with
    | none => .mfaRequired
    | some c =>
      if c = "" then .mfaRequired
      else if codeMatches c then
        .tokenLogin mfaRespToken true (some (c, resp.ticket.getD ""))
      else .mfaRequired
  else if jsStrTruthy resp.token then .tokenLogin (resp.token.getD "") false none
  else .unknownErr

/-! ## Logout (src/Client.js lines 584-592) -/

/-- The errors a logout call can deliver: the awaited network failure of the
session-invalidation POST, or a cleanup exception escaping destroy. -/
inductive LogoutErr (E : Type) where
  | net (e : E)
  | cleanupErr (id : ℕ)
deriving DecidableEq, Repr

structure LogoutOut (E : Type) where
  result : Except (LogoutErr E) Unit
  cleanupLog : List ℕ
  state : ClientState
deriving Repr

/-- src/Client.js lines 584-592: logout() awaits the session-invalidation
POST (outcome passed explicitly) and only then calls destroy(); a rejected
POST propagates before destroy is reached. -/
def logout {E : Type} (st : ClientState) (post : Except E Unit) : LogoutOut E :=
  match post with
  | .error e => ⟨.error (.net e), [], st⟩
  | .ok _ =>
    match destroy st with
    | (log, some i, st2) => ⟨.error (.cleanupErr i), log, st2⟩
    | (log, none, st2) => ⟨.ok (), log, st2⟩

/-! ## Remote auth (src/Client.js lines 468-499 and 558-560) -/

/-- The parsed remote-auth URL: hostname and pathname, the two components
the validation of lines 472-476 inspects. -/
structure RAUrl where
  hostname : String
  pathname : String
deriving DecidableEq, Repr

/-- The observable outcome of a remoteAuth call up to its first network
operation: the CLIENT_NOT_READY throw, the URL-constructor throw on an
unparseable input, the INVALID_REMOTE_AUTH_URL throw, or the POST of the
extracted fingerprint (the only branch that performs a network call),
carrying also the forceAccept flag driving the continuation choice. -/
inductive RAOutcome where
  | notReady
  | parseErr
  | invalidUrl
  | network (fingerprint : String) (forceAccept : Bool)
deriving DecidableEq, Repr

/-- Remove the first occurrence of the pattern from the list, as the JS
string replace with a string pattern and empty replacement does. -/
def removeFirst (pat : List Char) : List Char → List Char
  | [] => []
  | c :: cs =>
    if (c :: cs).take pat.length = pat then (c :: cs).drop pat.length
    else c :: removeFirst pat cs

/-- src/Client.js lines 468-491: remoteAuth(url, forceAccept) up to its
first network operation.  The readiness guard runs first, before the URL is
even parsed (none models an input new URL would reject); then the allow-list
and path checks; then the fingerprint POST. -/
def remoteAuth (ready : Bool) (url : Option RAUrl) (forceAccept : Bool) : RAOutcome :=
  if ready = false then .notReady
  else
    match url with
    | none => .parseErr
    | some u =>
      if ¬(u.hostname = "discordapp.com" ∨ u.hostname = "discord.com") ∨
          ¬(litPref "/ra/".data u.pathname.data = true) ∨ u.pathname.length ≤ 4 then
        .invalidUrl
      else .network (String.mk (removeFirst "/ra/".data u.pathname.data)) forceAccept

/-! ## Nitro code redemption (src/Client.js lines 263-266 and 657-686) -/

/-- One pass of the redemption loop of src/Client.js lines 669-684 over the
extracted code list.  succ tells whether the redemption POST for a given
code resolves; failFast is the failIfNotExists flag.  Returns the codes
POSTed (in order, one entry per network redemption call) and the resulting
used-code list.  A code already in the used list is skipped with no network
call; a POSTed code is appended to the used list whether the POST resolved
or rejected; a rejected POST under failFast aborts the remaining codes. -/
def redeemLoop (succ : String → Bool) (failFast : Bool) :
    List String → List String → List String × List String
  | [], used => ([], used)
  | c :: cs, used =>
    if c ∈ used then redeemLoop succ failFast cs used
    else if succ c then
      let r := redeemLoop succ failFast cs (used ++ [c])
      (c :: r.1, r.2)
    else if failFast then ([c], used ++ [c])
    else
      let r := redeemLoop succ failFast cs (used ++ [c])
      (c :: r.1, r.2)

/-- The lifetime events that touch the used-code list: a redeemNitro call
over an extracted code list, and the firing of the hourly interval of
src/Client.js lines 263-266 that wholesale resets usedCodes. -/
inductive RedeemEvent where
  | redeem (codes : List String) (succ : String → Bool) (failFast : Bool)
  | hourlyReset

def RedeemEvent.isReset : RedeemEvent → Bool
  | .hourlyReset => true
  | _ => false

/-- One lifetime event applied to the used-code list: the posts issued and
the new list. -/
def lifeStep (used : List String) : RedeemEvent → List String × List String
  | .redeem codes succ ff => redeemLoop succ ff codes used
  | .hourlyReset => ([], [])

/-- All redemption POSTs issued over a sequence of lifetime events, in
order. -/
def lifeRun : List String → List RedeemEvent → List String
  | _, [] => []
  | used, e :: es =>
    let r := lifeStep used e
    r.1 ++ lifeRun r.2 es

/-! ## Supporting lemmas -/

theorem toInt32_intCast (n : ℤ) (hn : 0 ≤ n) :
    (toInt32 (n : ℚ) = n ↔ n < 2147483648) := by
  have htr : jsTrunc (n : ℚ) = n := by
    unfold jsTrunc
    rw [if_pos (by exact_mod_cast hn)]
    exact Int.floor_intCast n
  unfold toInt32
  simp only [htr]
  split <;> omega

theorem keep_iff (q : ℚ) :
    (0 ≤ q ∧ q = ((toInt32 q : ℤ) : ℚ)) ↔ (0 ≤ q ∧ q.den = 1 ∧ q < 2147483648) := by
  constructor
  · rintro ⟨h0, he⟩
    have hden : q.den = 1 := by rw [he]; exact Rat.den_intCast _
    have hq : (q.num : ℚ) = q := (Rat.den_eq_one_iff q).mp hden
    have hn0 : 0 ≤ q.num := by
      rw [← hq] at h0; exact_mod_cast h0
    have heq : toInt32 q = q.num := by
      have : ((toInt32 q : ℤ) : ℚ) = (q.num : ℚ) := by rw [← he, hq]
      exact_mod_cast this
    have h32 : toInt32 ((q.num : ℤ) : ℚ) = q.num := by rw [hq, heq]
    have hlt : q.num < 2147483648 := (toInt32_intCast q.num hn0).mp h32
    refine ⟨h0, hden, ?_⟩
    rw [← hq]
    exact_mod_cast hlt
  · rintro ⟨h0, hden, hlt⟩
    have hq : (q.num : ℚ) = q := (Rat.den_eq_one_iff q).mp hden
    have hn0 : 0 ≤ q.num := by
      rw [← hq] at h0; exact_mod_cast h0
    have hnlt : q.num < 2147483648 := by
      rw [← hq] at hlt; exact_mod_cast hlt
    have h32 : toInt32 ((q.num : ℤ) : ℚ) = q.num := (toInt32_intCast q.num hn0).mpr hnlt
    have heq : toInt32 q = q.num := by
      conv_lhs => rw [← hq]
      exact h32
    refine ⟨h0, ?_⟩
    rw [heq]
    exact hq.symm

theorem shardKeep_eq (x : JSNum) : shardKeep x = int32Keep x := by
  cases x with
  | nan => rfl
  | posInf => rfl
  | negInf => rfl
  | num q =>
    show (!jsIsNaN (.num q) && jsLe (.num 0) (.num q) && jsLt (.num q) .posInf &&
        jsEqb (.num q) (jsOr0 (.num q))) = int32Keep (.num q)
    simp only [jsIsNaN, jsLe, jsLt, jsEqb, jsOr0, int32Keep, Bool.not_false, Bool.true_and,
      Bool.and_true]
    rw [← Bool.decide_and, ← Bool.decide_and, ← Bool.decide_and]
    refine decide_eq_decide.mpr ?_
    constructor
    · intro h
      have := (keep_iff q).mp h
      tauto
    · intro h
      exact (keep_iff q).mpr (by tauto)

theorem shardKeep_fun_eq : shardKeep = int32Keep := funext shardKeep_eq

theorem dedupFirstGo_sublist (l : List JSNum) :
    ∀ seen, List.Sublist (dedupFirstGo seen l) l := by
  induction l with
  | nil => intro seen; simp [dedupFirstGo]
  | cons x xs ih =>
    intro seen
    unfold dedupFirstGo
    by_cases hx : x ∈ seen
    · rw [if_pos hx]; exact (ih seen).cons x
    · rw [if_neg hx]; exact (ih (x :: seen)).cons₂ x

theorem dedupFirstGo_notMem (l : List JSNum) :
    ∀ seen y, y ∈ dedupFirstGo seen l → y ∉ seen := by
  induction l with
  | nil => intro seen y hy; simp [dedupFirstGo] at hy
  | cons x xs ih =>
    intro seen y hy
    unfold dedupFirstGo at hy
    by_cases hx : x ∈ seen
    · rw [if_pos hx] at hy; exact ih seen y hy
    · rw [if_neg hx] at hy
      rcases List.mem_cons.mp hy with h | h
      · subst h; exact hx
      · intro hs; exact ih (x :: seen) y h (List.mem_cons_of_mem x hs)

theorem dedupFirstGo_nodup (l : List JSNum) : ∀ seen, (dedupFirstGo seen l).Nodup := by
  induction l with
  | nil => intro seen; simp [dedupFirstGo]
  | cons x xs ih =>
    intro seen
    unfold dedupFirstGo
    by_cases hx : x ∈ seen
    · rw [if_pos hx]; exact ih seen
    · rw [if_neg hx]
      refine List.nodup_cons.mpr ⟨?_, ih (x :: seen)⟩
      intro hmem
      exact dedupFirstGo_notMem xs (x :: seen) x hmem (List.mem_cons_self x seen)

theorem runCleanups_noThrow (cs : List Cleanup) (h : ∀ c ∈ cs, c.throws = false) :
    runCleanups cs = (cs.map Cleanup.id, none) := by
  induction cs with
  | nil => rfl
  | cons c cs ih =>
    have hc : c.throws = false := h c (List.mem_cons_self c cs)
    have ih' := ih fun d hd => h d (List.mem_cons_of_mem c hd)
    simp [runCleanups, hc, ih']

theorem destroy_noThrow (st : ClientState) (h : ∀ c ∈ st.cleanups, c.throws = false) :
    destroy st = (st.cleanups.map Cleanup.id, none, clearedState st) := by
  unfold destroy
  rw [runCleanups_noThrow st.cleanups h]

theorem rl_mem_used (succ : String → Bool) (ff : Bool) :
    ∀ (codes used : List String) (c : String), c ∈ used →
      (redeemLoop succ ff codes used).1.count c = 0 ∧
        c ∈ (redeemLoop succ ff codes used).2 := by
  intro codes
  induction codes with
  | nil => intro used c hc; simp [redeemLoop, hc]
  | cons d ds ih =>
    intro used c hc
    unfold redeemLoop
    by_cases hd : d ∈ used
    · rw [if_pos hd]
      exact ih used c hc
    · rw [if_neg hd]
      have hne : c ≠ d := fun h => hd (h ▸ hc)
      have hc' : c ∈ used ++ [d] := List.mem_append_left _ hc
      by_cases hs : succ d = true
      · rw [if_pos hs]
        have := ih (used ++ [d]) c hc'
        constructor
        · rw [List.count_cons_of_ne hne]
          exact this.1
        · exact this.2
      · rw [if_neg hs]
        by_cases hf : ff = true
        · rw [if_pos hf]
          exact ⟨List.count_eq_zero.mpr (by simp [hne]), hc'⟩
        · rw [if_neg hf]
          have := ih (used ++ [d]) c hc'
          constructor
          · rw [List.count_cons_of_ne hne]
            exact this.1
          · exact this.2

theorem rl_count_le (succ : String → Bool) (ff : Bool) :
    ∀ (codes used : List String) (c : String),
      (redeemLoop succ ff codes used).1.count c ≤ 1 := by
  intro codes
  induction codes with
  | nil => intro used c; simp [redeemLoop]
  | cons d ds ih =>
    intro used c
    unfold redeemLoop
    by_cases hd : d ∈ used
    · rw [if_pos hd]
      exact ih used c
    · rw [if_neg hd]
      by_cases hcd : c = d
      · subst hcd
        have hmem : c ∈ used ++ [c] := List.mem_append_right _ (List.mem_singleton.mpr rfl)
        have hzero := (rl_mem_used succ ff ds (used ++ [c]) c hmem).1
        by_cases hs : succ c = true
        · rw [if_pos hs]
          rw [List.count_cons_self, hzero]
        · rw [if_neg hs]
          by_cases hf : ff = true
          · rw [if_pos hf]
            simp
          · rw [if_neg hf]
            rw [List.count_cons_self, hzero]
      · by_cases hs : succ d = true
        · rw [if_pos hs]
          rw [List.count_cons_of_ne hcd]
          exact ih (used ++ [d]) c
        · rw [if_neg hs]
          by_cases hf : ff = true
          · rw [if_pos hf]
            rw [List.count_cons_of_ne hcd]
            simp
          · rw [if_neg hf]
            rw [List.count_cons_of_ne hcd]
            exact ih (used ++ [d]) c

theorem rl_posted_mem (succ : String → Bool) (ff : Bool) :
    ∀ (codes used : List String) (c : String),
      1 ≤ (redeemLoop succ ff codes used).1.count c →
        c ∈ (redeemLoop succ ff codes used).2 := by
  intro codes
  induction codes with
  | nil => intro used c h; simp [redeemLoop] at h
  | cons d ds ih =>
    intro used c h
    unfold redeemLoop at h ⊢
    by_cases hd : d ∈ used
    · rw [if_pos hd] at h ⊢
      exact ih used c h
    · rw [if_neg hd] at h ⊢
      by_cases hcd : c = d
      · subst hcd
        have hmem : c ∈ used ++ [c] := List.mem_append_right _ (List.mem_singleton.mpr rfl)
        by_cases hs : succ c = true
        · rw [if_pos hs] at h ⊢
          exact (rl_mem_used succ ff ds (used ++ [c]) c hmem).2
        · rw [if_neg hs] at h ⊢
          by_cases hf : ff = true
          · rw [if_pos hf] at h ⊢
            exact hmem
          · rw [if_neg hf] at h ⊢
            exact (rl_mem_used succ ff ds (used ++ [c]) c hmem).2
      · by_cases hs : succ d = true
        · rw [if_pos hs] at h ⊢
          rw [List.count_cons_of_ne hcd] at h
          exact ih (used ++ [d]) c h
        · rw [if_neg hs] at h ⊢
          by_cases hf : ff = true
          · rw [if_pos hf] at h ⊢
            rw [List.count_eq_zero.mpr (by simp [hcd])] at h
            omega
          · rw [if_neg hf] at h ⊢
            rw [List.count_cons_of_ne hcd] at h
            exact ih (used ++ [d]) c h

theorem lifeRun_mem_zero (tr : List RedeemEvent) :
    ∀ (used : List String) (c : String), (∀ e ∈ tr, e.isReset = false) → c ∈ used →
      (lifeRun used tr).count c = 0 := by
  induction tr with
  | nil => intro used c _ _; simp [lifeRun]
  | cons e es ih =>
    intro used c hr hc
    cases e with
    | hourlyReset =>
      exact absurd (hr _ (List.mem_cons_self _ _)) (by simp [RedeemEvent.isReset])
    | redeem codes succ ff =>
      simp only [lifeRun, lifeStep]
      rw [List.count_append]
      have h1 := rl_mem_used succ ff codes used c hc
      rw [h1.1, ih _ c (fun e he => hr e (List.mem_cons_of_mem _ he)) h1.2]

theorem lifeRun_count_le (tr : List RedeemEvent) :
    ∀ (used : List String) (c : String), (∀ e ∈ tr, e.isReset = false) →
      (lifeRun used tr).count c ≤ 1 := by
  induction tr with
  | nil => intro used c _; simp [lifeRun]
  | cons e es ih =>
    intro used c hr
    cases e with
    | hourlyReset =>
      exact absurd (hr _ (List.mem_cons_self _ _)) (by simp [RedeemEvent.isReset])
    | redeem codes succ ff =>
      have hr' : ∀ e ∈ es, e.isReset = false := fun e he => hr e (List.mem_cons_of_mem _ he)
      simp only [lifeRun, lifeStep]
      rw [List.count_append]
      have hple := rl_count_le succ ff codes used c
      rcases Nat.lt_or_ge ((redeemLoop succ ff codes used).1.count c) 1 with hp | hp
      · have hp0 : (redeemLoop succ ff codes used).1.count c = 0 := by omega
        have := ih (redeemLoop succ ff codes used).2 c hr'
        omega
      · have hmem := rl_posted_mem succ ff codes used c hp
        have := lifeRun_mem_zero es _ c hr' hmem
        omega

/-! ## Claim theorems -/

/-- C3, counterexample: the value 2^31 is a finite non-negative integer, so
the claim says shard resolution keeps it, but the source filter built on
item === (item | 0) drops it (ToInt32 wraps 2^31 to -2^31). -/
theorem c3_counterexample :
    resolveShardList [.num 2147483648] = [] ∧
    specResolveShardList [.num 2147483648] = [.num 2147483648] ∧
    resolveShardList [.num 2147483648] ≠ specResolveShardList [.num 2147483648] := by
  refine ⟨by decide, by decide, by decide⟩

/-- C3 (amended): for every raw shard list, shard resolution yields the
subsequence of first occurrences of exactly the non-negative integer
elements below 2^31 (the signed-32-bit-representable ones), duplicates
removed and first-occurrence order preserved. -/
theorem c3_shard_resolution (xs : List JSNum) :
    resolveShardList xs = dedupFirst (xs.filter int32Keep) ∧
    List.Sublist (resolveShardList xs) xs ∧
    (resolveShardList xs).Nodup := by
  refine ⟨?_, ?_, ?_⟩
  · unfold resolveShardList
    rw [shardKeep_fun_eq]
  · exact (dedupFirstGo_sublist _ _).trans (List.filter_sublist xs)
  · exact dedupFirstGo_nodup _ _

/-- C5, counterexample: a shard count of Infinity is not a positive integer,
so the claim says construction fails, but the source check of line 1072 only
rejects a non-number, NaN, or a value below 1 — Infinity passes and
construction succeeds (a fractional count such as 1.5 passes the same
way). -/
theorem c5_counterexample :
    clientConstruct (.list [.num 5]) (some .posInf) =
      .ok (.list [.num 5], some .posInf) ∧
    specPosIntCount (some .posInf) = false := by
  refine ⟨rfl, rfl⟩

/-- C5 (amended): construction fails with a ConfigurationError when, after
normalization, the shard list is present but empty, or the shard count is
not a number that is at least 1 (non-number, NaN, or below 1); the failure
is raised at construction, before any network call. -/
theorem c5_construct_fails (shards : ShardsOpt) (shardCount : Option JSNum)
    (h : shardCountBad shardCount = true ∨ normalizeShards shards shardCount = .list []) :
    ∃ e, clientConstruct shards shardCount = .error e := by
  unfold clientConstruct
  rcases h with h | h
  · simp [validateShardOptions, h]
  · by_cases hb : shardCountBad shardCount = true
    · simp [validateShardOptions, hb]
    · rw [h]
      simp [validateShardOptions, hb, jsShardsTruthy, isAutoOrArray, shardsLengthy]

/-- C5 witness: a shard count of 0 is rejected at construction. -/
theorem c5_construct_fails_witness :
    (shardCountBad (some (.num 0)) = true ∨
      normalizeShards .undef (some (.num 0)) = .list []) ∧
    ∃ e, clientConstruct .undef (some (.num 0)) = .error e :=
  ⟨Or.inl (by decide), c5_construct_fails .undef (some (.num 0)) (Or.inl (by decide))⟩

/-- C6, counterexample: the input Botabc carries no literal scheme prefix
Bot-space or Bearer-space, so the claim says the stored token is Botabc
unchanged, but the source regex strips Bot even with no following space and
login stores and returns abc. -/
theorem c6_counterexample :
    (login (ClientState.mk none none [] false false false [])
        (.jstr "Botabc") (Except.ok () : Except Unit Unit)).result = .ok "abc" ∧
    specStrip "Botabc" = "Botabc" ∧
    ("abc" : String) ≠ "Botabc" := by
  refine ⟨rfl, rfl, by decide⟩

/-- C6 (amended): empty or non-string input fails with InvalidTokenError
before any network call; a non-empty string token is stripped of a leading
case-insensitive Bot or Bearer followed by any (possibly empty) run of
whitespace, the stripped value is stored as the session token, and on
success login returns that stripped token. -/
theorem c6_login_token (E : Type) (st : ClientState) (conn : Except E Unit)
    (s : String) (hs : s ≠ "") :
    ((login st .nonStr conn).result = .error .tokenInvalid ∧
      (login st .nonStr conn).connected = false) ∧
    ((login st (.jstr "") conn).result = .error .tokenInvalid ∧
      (login st (.jstr "") conn).connected = false) ∧
    (login st (.jstr s) (Except.ok () : Except E Unit)).result = .ok (stripScheme s) ∧
    (login st (.jstr s) (Except.ok () : Except E Unit)).state.token =
      some (stripScheme s) := by
  refine ⟨⟨rfl, rfl⟩, ⟨?_, ?_⟩, ?_, ?_⟩
  · simp [login]
  · simp [login]
  · simp [login, hs]
  · simp [login, hs]

/-- C6 witness: login on the token Bot-space-space-x succeeds with the
stripped token x. -/
theorem c6_login_token_witness :
    (("Bot  x" : String) ≠ "" ∧
      (login (ClientState.mk none none [] false false false [])
          (.jstr "Bot  x") (Except.ok () : Except Unit Unit)).result =
        .ok (stripScheme "Bot  x") ∧
      (login (ClientState.mk none none [] false false false [])
          (.jstr "Bot  x") (Except.ok () : Except Unit Unit)).state.token =
        some (stripScheme "Bot  x")) ∧
    stripScheme "Bot  x" = "x" :=
  ⟨⟨by decide,
    (c6_login_token Unit (ClientState.mk none none [] false false false [])
      (Except.ok ()) "Bot  x" (by decide)).2.2.1,
    (c6_login_token Unit (ClientState.mk none none [] false false false [])
      (Except.ok ()) "Bot  x" (by decide)).2.2.2⟩, by decide⟩

/-- C7, counterexample: with a pending cleanup that throws, destroy()
raises (the exception escapes), leaves the token set, and a second destroy()
re-invokes the first cleanup — so the claim's idempotence and the
token-nulling both fail at this concrete state. -/
theorem c7_counterexample :
    (destroy (ClientState.mk (some "t") (some "p")
        [Cleanup.mk 0 false, Cleanup.mk 1 true] true true true [])).2.1 = some 1 ∧
    (destroy (ClientState.mk (some "t") (some "p")
        [Cleanup.mk 0 false, Cleanup.mk 1 true] true true true [])).2.2.token = some "t" ∧
    (destroy (ClientState.mk (some "t") (some "p")
        [Cleanup.mk 0 false, Cleanup.mk 1 true] true true true [])).1 = [0, 1] ∧
    (destroy (destroy (ClientState.mk (some "t") (some "p")
        [Cleanup.mk 0 false, Cleanup.mk 1 true] true true true [])).2.2).1 = [0, 1] := by
  refine ⟨by decide, by decide, by decide, by decide⟩

/-- C7 (amended): provided no registered cleanup throws, destroy() is
idempotent — the first call raises no error, runs every pending cleanup
exactly once (the set is cleared en masse afterwards, so the combined
invocation log of two consecutive calls lists each pending cleanup once),
nulls the token and the cached password, and a second call raises no error,
invokes nothing and leaves the state fixed. -/
theorem c7_destroy_idempotent (st : ClientState)
    (h : ∀ c ∈ st.cleanups, c.throws = false) :
    destroy st = (st.cleanups.map Cleanup.id, none, clearedState st) ∧
    destroy (clearedState st) = ([], none, clearedState st) ∧
    (clearedState st).token = none ∧
    (clearedState st).password = none ∧
    (clearedState st).cleanups = [] := by
  refine ⟨destroy_noThrow st h, rfl, rfl, rfl, rfl⟩

/-- C7 witness: destroy at a state with two non-throwing cleanups. -/
theorem c7_destroy_idempotent_witness :
    (∀ c ∈ [Cleanup.mk 4 false, Cleanup.mk 9 false], c.throws = false) ∧
    destroy (ClientState.mk (some "tk") (some "pw")
        [Cleanup.mk 4 false, Cleanup.mk 9 false] true true true ["u"]) =
      ([4, 9], none, clearedState (ClientState.mk (some "tk") (some "pw")
        [Cleanup.mk 4 false, Cleanup.mk 9 false] true true true ["u"])) :=
  ⟨by decide,
    (c7_destroy_idempotent (ClientState.mk (some "tk") (some "pw")
      [Cleanup.mk 4 false, Cleanup.mk 9 false] true true true ["u"]) (by decide)).1⟩

/-- C1, counterexample: when a pending cleanup throws, the destroy inside
login's catch block aborts — the cleanup's exception replaces the original
connect error and the token is not cleared, so the claim's full-teardown and
rethrow-unchanged both fail at this concrete input. -/
theorem c1_counterexample :
    (login (ClientState.mk none (some "pw") [Cleanup.mk 7 true] false false true [])
        (.jstr "tok") (Except.error 5 : Except ℕ Unit)).result =
      .error (.cleanupErr 7) ∧
    LoginErr.cleanupErr 7 ≠ (LoginErr.connectErr 5 : LoginErr ℕ) ∧
    (login (ClientState.mk none (some "pw") [Cleanup.mk 7 true] false false true [])
        (.jstr "tok") (Except.error 5 : Except ℕ Unit)).state.token = some "tok" := by
  refine ⟨rfl, by decide, rfl⟩

/-- C1 (amended): provided no pending cleanup throws, a login whose connect
attempt fails performs the full teardown — every pending cleanup runs, the
token and the cached password are cleared — and then rethrows the original
connect error unchanged to the caller. -/
theorem c1_login_teardown (E : Type) (st : ClientState) (s : String) (e : E)
    (hs : s ≠ "") (hc : ∀ c ∈ st.cleanups, c.throws = false) :
    login st (.jstr s) (Except.error e) =
      ⟨.error (.connectErr e), st.cleanups.map Cleanup.id, true, clearedState st⟩ := by
  have hd : destroy { st with token := some (stripScheme s) } =
      (st.cleanups.map Cleanup.id, none, clearedState st) :=
    destroy_noThrow { st with token := some (stripScheme s) } hc
  simp only [login, if_neg hs, hd]

/-- C1 witness: a failed connect at a concrete state with two non-throwing
cleanups tears down fully and rethrows the connect error. -/
theorem c1_login_teardown_witness :
    (("Bearer abc" : String) ≠ "") ∧
    (∀ c ∈ [Cleanup.mk 1 false, Cleanup.mk 2 false], c.throws = false) ∧
    login (ClientState.mk (some "old") (some "pw")
        [Cleanup.mk 1 false, Cleanup.mk 2 false] true true true ["x"])
      (.jstr "Bearer abc") (Except.error (9 : ℕ)) =
      ⟨.error (.connectErr 9), [1, 2], true,
        clearedState (ClientState.mk (some "old") (some "pw")
          [Cleanup.mk 1 false, Cleanup.mk 2 false] true true true ["x"])⟩ :=
  ⟨by decide, by decide,
    c1_login_teardown ℕ (ClientState.mk (some "old") (some "pw")
      [Cleanup.mk 1 false, Cleanup.mk 2 false] true true true ["x"])
      "Bearer abc" 9 (by decide) (by decide)⟩

/-- C8: logout awaits the session-invalidation POST first; when that POST
rejects, the error propagates, destroy() is never reached (no cleanup runs)
and the whole state — token, password, caches and timers — is unchanged.
When the POST resolves, destroy() then runs to completion. -/
theorem c8_logout_order (E : Type) (st : ClientState) (e : E)
    (hc : ∀ c ∈ st.cleanups, c.throws = false) :
    logout st (Except.error e : Except E Unit) = ⟨.error (.net e), [], st⟩ ∧
    logout st (Except.ok () : Except E Unit) =
      ⟨.ok (), st.cleanups.map Cleanup.id, clearedState st⟩ := by
  constructor
  · rfl
  · unfold logout
    rw [destroy_noThrow st hc]

/-- C8 witness: a failed logout POST at a concrete state leaves it intact;
a successful one destroys. -/
theorem c8_logout_order_witness :
    (∀ c ∈ [Cleanup.mk 3 false], c.throws = false) ∧
    logout (ClientState.mk (some "tk") (some "pw") [Cleanup.mk 3 false] true true true [])
        (Except.error (7 : ℕ)) =
      ⟨.error (.net 7), [],
        ClientState.mk (some "tk") (some "pw") [Cleanup.mk 3 false] true true true []⟩ ∧
    logout (ClientState.mk (some "tk") (some "pw") [Cleanup.mk 3 false] true true true [])
        (Except.ok () : Except ℕ Unit) =
      ⟨.ok (), [3], clearedState (ClientState.mk (some "tk") (some "pw")
        [Cleanup.mk 3 false] true true true [])⟩ :=
  ⟨by decide,
    (c8_logout_order ℕ (ClientState.mk (some "tk") (some "pw")
      [Cleanup.mk 3 false] true true true []) 7 (by decide)).1,
    (c8_logout_order ℕ (ClientState.mk (some "tk") (some "pw")
      [Cleanup.mk 3 false] true true true []) 7 (by decide)).2⟩

/-- C9: on a READY client, a remote-auth URL whose host is outside the
allow-listed service domains, or whose path is not the reserved /ra/ prefix
with a non-empty remainder, is rejected with InvalidRemoteAuthUrlError —
the network branch is never reached. -/
theorem c9_remoteAuth_validation (u : RAUrl) (fa : Bool)
    (h : ¬(u.hostname = "discordapp.com" ∨ u.hostname = "discord.com") ∨
      ¬(litPref "/ra/".data u.pathname.data = true) ∨ u.pathname.length ≤ 4) :
    remoteAuth true (some u) fa = .invalidUrl := by
  unfold remoteAuth
  rw [if_neg (by simp : ¬(true = false))]
  exact if_pos h

/-- C9 witness: the host evil.example is rejected before any network
call. -/
theorem c9_remoteAuth_validation_witness :
    (¬(("evil.example" : String) = "discordapp.com" ∨
        ("evil.example" : String) = "discord.com") ∨
      ¬(litPref "/ra/".data ("/ra/abc123" : String).data = true) ∨
      ("/ra/abc123" : String).length ≤ 4) ∧
    remoteAuth true (some (RAUrl.mk "evil.example" "/ra/abc123")) false = .invalidUrl :=
  ⟨Or.inl (by decide),
    c9_remoteAuth_validation (RAUrl.mk "evil.example" "/ra/abc123") false
      (Or.inl (by decide))⟩

/-- C10: whenever the client is not READY, remoteAuth throws the
client-not-ready error for every url (parseable or not) and every
forceAccept value, before the URL is parsed or validated and before any
network call. -/
theorem c10_remoteAuth_notReady (url : Option RAUrl) (fa : Bool) :
    remoteAuth false url fa = .notReady := rfl

/-- C2, counterexample: the hourly interval of lines 263-266 wholesale
resets the used-code list, so a lifetime in which the reset fires between
two redemptions of the same code issues two redemption POSTs for it — the
whole-lifetime at-most-once of the claim fails. -/
theorem c2_counterexample :
    ¬((lifeRun [] [.redeem ["g"] (fun _ => true) true, .hourlyReset,
        .redeem ["g"] (fun _ => true) true]).count "g" ≤ 1) := by
  decide

/-- C2 (amended): between two consecutive firings of the hourly used-code
reset (in particular, in any lifetime segment containing no reset),
redeeming the same code string any number of times issues at most one
network redemption POST for it, whether the first attempt succeeded or
failed and in either fail-fast or best-effort mode. -/
theorem c2_redeem_at_most_once (tr : List RedeemEvent) (c : String)
    (h : ∀ e ∈ tr, e.isReset = false) :
    (lifeRun [] tr).count c ≤ 1 :=
  lifeRun_count_le tr [] c h

/-- C2 witness: a message carrying the same code twice, redeemed with a
succeeding POST, POSTs it once. -/
theorem c2_redeem_at_most_once_witness :
    (∀ e ∈ [RedeemEvent.redeem ["g", "g"] (fun _ => true) true], e.isReset = false) ∧
    (lifeRun [] [RedeemEvent.redeem ["g", "g"] (fun _ => true) true]).count "g" ≤ 1 :=
  ⟨by decide,
    c2_redeem_at_most_once [RedeemEvent.redeem ["g", "g"] (fun _ => true) true] "g"
      (by decide)⟩

/-- C4, counterexample: the code ABCD-EFGH matches the claim's
4-alphanumeric-dash-4-alphanumeric backup pattern, yet the source regex is
case-sensitive lower-case only, so normalLogin rejects with the
MfaRequiredError instead of calling the MFA exchange endpoint. -/
theorem c4_counterexample :
    normalLogin (some "user") (some "hunter2") (AuthResponse.mk none (some "t1") true)
        (some "ABCD-EFGH") "tok2" = .mfaRequired ∧
    specCodeMatches "ABCD-EFGH" = true ∧
    codeMatches "ABCD-EFGH" = false := by
  refine ⟨rfl, by decide, by decide⟩

/-- C4 (amended): when the first credential-login response carries an MFA
ticket, the mfa flag and no token — if the supplied string code contains six
consecutive digits or a lower-case-alphanumeric 4-dash-4 backup pattern
(the source regexes, unanchored and case-sensitive), the MFA exchange
endpoint is called with that code and ticket and its returned token is fed
to token login; otherwise normalLogin rejects with MfaRequiredError and no
second network call is made. -/
theorem c4_mfa_exchange (u p : Option String) (resp : AuthResponse)
    (c t mfaTok : String)
    (hu : jsStrTruthy u = true) (hp : jsStrTruthy p = true)
    (htok : jsStrTruthy resp.token = false) (ht : resp.ticket = some t)
    (htt : t ≠ "") (hm : resp.mfa = true) :
    (codeMatches c = true →
      normalLogin u p resp (some c) mfaTok = .tokenLogin mfaTok true (some (c, t))) ∧
    (codeMatches c = false →
      normalLogin u p resp (some c) mfaTok = .mfaRequired) := by
  have htsome : jsStrTruthy (some t) = true := by simp [jsStrTruthy, htt]
  have htick : jsStrTruthy resp.ticket = true := by rw [ht]; exact htsome
  constructor
  · intro hcm
    have hce : c ≠ "" := by
      intro he
      rw [he] at hcm
      exact absurd hcm (by decide)
    simp [normalLogin, hu, hp, htok, htick, htsome, hm, hce, hcm, ht]
  · intro hcm
    by_cases hce : c = ""
    · subst hce
      simp [normalLogin, hu, hp, htok, htick, hm]
    · simp [normalLogin, hu, hp, htok, htick, hm, hce, hcm]

/-- C4 witness: the code 123456 with ticket t1 reaches the MFA exchange and
its token is fed to login. -/
theorem c4_mfa_exchange_witness :
    jsStrTruthy (some "user") = true ∧
    jsStrTruthy (some "hunter2") = true ∧
    codeMatches "123456" = true ∧
    normalLogin (some "user") (some "hunter2") (AuthResponse.mk none (some "t1") true)
        (some "123456") "tok2" = .tokenLogin "tok2" true (some ("123456", "t1")) :=
  ⟨by decide, by decide, by decide,
    (c4_mfa_exchange (some "user") (some "hunter2")
        (AuthResponse.mk none (some "t1") true) "123456" "t1" "tok2"
        (by decide) (by decide) (by decide) rfl (by decide) rfl).1 (by decide)⟩

end ClientCore
